import Mathlib

/-!
# Verification of the lazy-fork EVM simulator

Shallow embedding of the Gealber/evm-simulator repository: the fork record and
access-list bookkeeping, the interpreter pre-dispatch hooks
(`registerAddressStorage`, `registerAddressCodeForCalls`,
`registerAddressCodeForExt`, `appendToAccessList` from `vm/interpreter.go`),
the ideal-state reconstructor `InitIdealState`, and the two-pass orchestration
(`Simulate`, `unoptimalSimulation`, `SimulateBundle` from the simulator
package).  Machine words, addresses and storage slots are modelled as `Nat`
(with explicit `% 2^160` truncation where the Go code narrows a 32-byte stack
word to a 20-byte address); the remote JSON-RPC source is modelled as a total
oracle; the mutable `StateDB` is modelled as an explicit record of functions
threaded through every operation.
-/

namespace EvmSim

/-- 256-bit machine word, modelled as `Nat`; arithmetic that can overflow is
reduced `% 2^256` explicitly. -/
abbrev Word := Nat

/-- 20-byte account address, modelled as `Nat < 2^160` by construction where
it matters (`Bytes20` truncation is `% 2^160`). -/
abbrev Address := Nat

/-- 32-byte storage slot identifier. -/
abbrev Slot := Nat

/-- The word-size modulus `2^256`. -/
def wordMod : Nat := 2 ^ 256

/-- The address-size modulus `2^160`; `common.Address(x.Bytes20())` keeps the
low 20 bytes of a stack word. -/
def addrMod : Nat := 2 ^ 160

/-- Contract bytecode.  The per-opcode semantics are an external collaborator
of the repository, so code is a list of structured instructions rather than
raw bytes; the instruction set covers exactly the opcodes the repository's
tests and hooks exercise. -/
inductive Instr where
  | push0
  | push1 (imm : Word)
  | calldataload
  | sload
  | sstore
  | add
  | mstore
  | ret
  | stop
  deriving DecidableEq, Repr

/-- Account code as installed in the state store. -/
abbrev Code := List Instr

/-- The mutable account/storage/code store (`state.StateDB`), modelled as a
record of total functions plus an existence flag.  Absent accounts read back
zero/empty, matching the trie's behaviour on missing keys. -/
structure EvmState where
  exist : Address → Bool
  code : Address → Code
  balance : Address → Nat
  storage : Address → Slot → Word

/-- The empty, freshly-rooted state (`state.New(types.EmptyRootHash, ...)`). -/
def EvmState.empty : EvmState :=
  { exist := fun _ => false
    code := fun _ => []
    balance := fun _ => 0
    storage := fun _ _ => 0 }

/-- `StateDB.CreateAccount`: marks the account as existing; balance, code and
storage carry over (the relevant uses here start from states where the
account is absent, so they read as zero/empty). -/
def EvmState.createAccount (st : EvmState) (a : Address) : EvmState :=
  { st with exist := fun x => if x = a then true else st.exist x }

/-- `StateDB.SetCode`. -/
def EvmState.setCode (st : EvmState) (a : Address) (c : Code) : EvmState :=
  { st with code := fun x => if x = a then c else st.code x }

/-- `StateDB.SetBalance`. -/
def EvmState.setBalance (st : EvmState) (a : Address) (b : Nat) : EvmState :=
  { st with balance := fun x => if x = a then b else st.balance x }

/-- `StateDB.AddBalance`. -/
def EvmState.addBalance (st : EvmState) (a : Address) (d : Nat) : EvmState :=
  { st with balance := fun x => if x = a then st.balance x + d else st.balance x }

/-- `StateDB.SetState`: writes one storage slot of one account. -/
def EvmState.setState (st : EvmState) (a : Address) (s : Slot) (v : Word) : EvmState :=
  { st with storage := fun x y => if x = a ∧ y = s then v else st.storage x y }

/-- An EIP-2930-style access list: ordered `(address, ordered slots)` entries
(`types.AccessList`). -/
abbrev AccessList := List (Address × List Slot)

/-- The Fork Record (`RecordToInitiateState`): the three deduplication sets
plus the access list.  The Go sets are hash maps; they are modelled as lists
whose membership is what matters, and `addressStorageSet` keeps the fetched
value exactly as the Go `map[string]common.Hash` does (key `addr:slot`,
value the remotely fetched word). -/
structure RecordToInitiateState where
  addressCodeSet : List Address
  addressBalanceSet : List Address
  addressStorageSet : List ((Address × Slot) × Word)
  accessList : AccessList

/-- The record every pass starts from when the caller supplies none: all sets
empty, access list empty (`make(map...)` / nil in `NewEVMInterpreter`). -/
def RecordToInitiateState.empty : RecordToInitiateState :=
  { addressCodeSet := []
    addressBalanceSet := []
    addressStorageSet := []
    accessList := [] }

/-- First-match lookup in the storage dedup set (Go map access on the
`addr:slot` composite key; map keys are unique so first = only). -/
def lookupStorageSet (l : List ((Address × Slot) × Word)) (k : Address × Slot) :
    Option Word :=
  match l with
  | [] => none
  | e :: rest => if e.1 = k then some e.2 else lookupStorageSet rest k

/-- The keys of the storage dedup set. -/
def storageKeys (l : List ((Address × Slot) × Word)) : List (Address × Slot) :=
  l.map Prod.fst

/-- The code loop of `InitIdealState`: `tmp.CreateAccount(acc)` followed by
`tmp.SetCode(acc, originState.GetCode(acc))` for each address of the code
set. -/
def applyCodeSet (o : EvmState) (l : List Address) (st0 : EvmState) :
    EvmState :=
  l.foldl (fun st acc => (st.createAccount acc).setCode acc (o.code acc)) st0

/-- The balance loop of `InitIdealState`: `tmp.SetBalance(acc,
originState.GetBalance(acc))` for each address of the balance set. -/
def applyBalanceSet (o : EvmState) (l : List Address) (st0 : EvmState) :
    EvmState :=
  l.foldl (fun st acc => st.setBalance acc (o.balance acc)) st0

/-- The storage loop of `InitIdealState`: `tmp.SetState(acc, slot, value)`
for each entry of the storage set — the written value is the one stored in
the record, not re-read from the reference state. -/
def applyStorageSet (l : List ((Address × Slot) × Word)) (st0 : EvmState) :
    EvmState :=
  l.foldl (fun st kv => st.setState kv.1.1 kv.1.2 kv.2) st0

/-- `InitIdealState` from the simulator package: starting from an empty,
freshly-rooted state, create an account and install its code (read from the
reference state) for every address in the code set, copy the balance from the
reference state for every address in the balance set, and write, for every
`(address, slot)` key of the storage set, the value stored in the record
itself.  Commit-and-reopen is content-preserving and is modelled as the
identity on the resulting state. -/
def InitIdealState (originState : EvmState) (record : RecordToInitiateState) :
    EvmState :=
  applyStorageSet record.addressStorageSet
    (applyBalanceSet originState record.addressBalanceSet
      (applyCodeSet originState record.addressCodeSet EvmState.empty))

/-- The interpreter's access-list bookkeeping: the list under construction
plus the parallel per-`(address, slot)` "already in list" set
(`addressSlotAccessListSet`), which `NewEVMInterpreter` always creates fresh. -/
structure ALState where
  accessList : AccessList
  seen : List (Address × Slot)

/-- The fresh access-list bookkeeping every interpreter run starts with. -/
def ALState.empty : ALState := { accessList := [], seen := [] }

/-- Whether some entry of the access list already carries the address
(the `l.Address.Cmp(scope.Address()) == 0` scan). -/
def containsAddr (l : AccessList) (a : Address) : Bool :=
  l.any (fun e => e.1 == a)

/-- Append a slot to the first entry whose address matches (the loop in
`appendToAccessList` breaks at the first match). -/
def addSlotFirst (l : AccessList) (a : Address) (s : Slot) : AccessList :=
  match l with
  | [] => []
  | e :: rest =>
    if e.1 = a then (e.1, e.2 ++ [s]) :: rest else e :: addSlotFirst rest a s

/-- `appendToAccessList` from `vm/interpreter.go` (minus the unused `op`
parameter): skip if the `(address, slot)` pair was already appended; else
append the slot to the existing entry for the address, or start a new entry,
and mark the pair as seen. -/
def appendToAccessList (st : ALState) (a : Address) (s : Slot) : ALState :=
  if (a, s) ∈ st.seen then st
  else
    { accessList :=
        if containsAddr st.accessList a then addSlotFirst st.accessList a s
        else st.accessList ++ [(a, [s])]
      seen := st.seen ++ [(a, s)] }

/-- The Remote State Source (`rpc.Client`), modelled as a total oracle; the
`blk` argument is the block tag the interpreter passes
(`"0x" + BlockNumber.Text(16)`), carried as the block number itself. -/
structure RemoteSource where
  getCode : Address → Nat → Code
  getStorageAt : Address → Slot → Nat → Word
  getBalance : Address → Nat → Nat

/-- The oracle whose every answer is zero/empty (a chain holding nothing). -/
def remoteZero : RemoteSource :=
  { getCode := fun _ _ => []
    getStorageAt := fun _ _ _ => 0
    getBalance := fun _ _ => 0 }

/-- One remote fetch actually issued, tagged with the block it was issued
at. -/
inductive FetchEvent where
  | code (a : Address) (blk : Nat)
  | balance (a : Address) (blk : Nat)
  | storage (a : Address) (s : Slot) (blk : Nat)
  deriving DecidableEq, Repr

/-- A fetchable fact, forgetting the block tag (for counting fetches per
fact). -/
inductive Fact where
  | codeF (a : Address)
  | balanceF (a : Address)
  | storageF (a : Address) (s : Slot)
  deriving DecidableEq, Repr

/-- The fact a fetch event is about. -/
def FetchEvent.fact : FetchEvent → Fact
  | .code a _ => .codeF a
  | .balance a _ => .balanceF a
  | .storage a s _ => .storageF a s

/-- How many events in a trace fetch the given fact. -/
def countFact (f : Fact) (l : List FetchEvent) : Nat :=
  (l.filter (fun e => e.fact = f)).length

/-- The interpreter-side mutable context the hooks act on: the `StateDB`
plus the three dedup sets the interpreter carries. -/
structure HookState where
  evm : EvmState
  codeSet : List Address
  balanceSet : List Address
  storageSet : List ((Address × Slot) × Word)

/-- Errors the pre-dispatch hooks can raise ("insufficient elements in
stack"). -/
inductive HookErr where
  | insufficientStack
  deriving DecidableEq, Repr

/-- The hooked opcodes of `vm/interpreter.go` (plus `other` for everything
the hooks ignore). -/
inductive OpCode where
  | SLOAD | SSTORE
  | CALL | CALLCODE | DELEGATECALL | STATICCALL
  | EXTCODECOPY | EXTCODEHASH | EXTCODESIZE
  | other
  deriving DecidableEq, Repr

/-- `readStorage`. -/
def readStorage : OpCode → Bool
  | .SLOAD => true
  | _ => false

/-- `interactWithStorage`. -/
def interactWithStorage : OpCode → Bool
  | .SLOAD => true
  | .SSTORE => true
  | _ => false

/-- `isCall`. -/
def isCall : OpCode → Bool
  | .CALL => true
  | .CALLCODE => true
  | .DELEGATECALL => true
  | .STATICCALL => true
  | _ => false

/-- `isExtCode`. -/
def isExtCode : OpCode → Bool
  | .EXTCODECOPY => true
  | .EXTCODEHASH => true
  | .EXTCODESIZE => true
  | _ => false

/-- `registerAddressStorage`: for a storage-reading opcode, peek the
top-of-stack slot (the stack is a list with its top first, i.e. Go index
`len-1` is the head); if the `(contract, slot)` key is not in the storage
dedup set, fetch the slot's value remotely, install it in the state store and
record key and value in the set. -/
def registerAddressStorage (remote : RemoteSource) (contractAddr : Address)
    (stack : List Word) (hs : HookState) (blk : Nat) :
    Except HookErr (HookState × List FetchEvent) :=
  if stack.length < 1 then .error .insufficientStack
  else
    let slot : Slot := stack.headD 0
    let key := (contractAddr, slot)
    match lookupStorageSet hs.storageSet key with
    | some _ => .ok (hs, [])
    | none =>
      let v := remote.getStorageAt contractAddr slot blk
      .ok ({ hs with
              evm := hs.evm.setState contractAddr slot v
              storageSet := hs.storageSet ++ [(key, v)] },
           [.storage contractAddr slot blk])

/-- The fetch-and-install body shared by the two code hooks: fetch the
address's code remotely, create the account in the state store when it does
not exist, and install the code. -/
def installCode (remote : RemoteSource) (evm : EvmState) (addr : Address)
    (blk : Nat) : EvmState :=
  (if evm.exist addr then evm else evm.createAccount addr).setCode addr
    (remote.getCode addr blk)

/-- `registerAddressCodeForCalls`: for the four call opcodes, read the target
address from stack position `len-2` (index 1 from the top) truncated to 20
bytes; return untouched when the address is already in the code set;
otherwise fetch the code, create the account if absent, install the code and
add the address to the code set.  For `CALL`/`CALLCODE` additionally read the
value from position `len-3` (index 2): when it exceeds the target's local
balance and the target's balance was never fetched, fetch the remote balance;
when that covers the value, add exactly the remote-minus-local difference and
mark the balance as fetched. -/
def registerAddressCodeForCalls (remote : RemoteSource) (op : OpCode)
    (stack : List Word) (hs : HookState) (blk : Nat) :
    Except HookErr (HookState × List FetchEvent) :=
  if stack.length < 3 then .error .insufficientStack
  else
    let addr : Address := (stack[1]?.getD 0) % addrMod
    if addr ∈ hs.codeSet then .ok (hs, [])
    else
      let evm2 := installCode remote hs.evm addr blk
      let hs1 : HookState :=
        { hs with evm := evm2, codeSet := hs.codeSet ++ [addr] }
      if op = .CALL ∨ op = .CALLCODE then
        let value : Word := stack[2]?.getD 0
        if value > evm2.balance addr ∧ addr ∉ hs.balanceSet then
          if remote.getBalance addr blk ≥ value then
            .ok ({ hs1 with
                    evm := evm2.addBalance addr
                      (remote.getBalance addr blk - evm2.balance addr)
                    balanceSet := hs.balanceSet ++ [addr] },
                 [.code addr blk, .balance addr blk])
          else .ok (hs1, [.code addr blk, .balance addr blk])
        else .ok (hs1, [.code addr blk])
      else .ok (hs1, [.code addr blk])

/-- `registerAddressCodeForExt`: for the three external-code-read opcodes,
read the target address from the top of the stack (Go index `len-1`)
truncated to 20 bytes and apply the same on-demand code fetch/install as the
call hook, without any balance handling. -/
def registerAddressCodeForExt (remote : RemoteSource)
    (stack : List Word) (hs : HookState) (blk : Nat) :
    Except HookErr (HookState × List FetchEvent) :=
  if stack.length < 1 then .error .insufficientStack
  else
    let addr : Address := (stack[0]?.getD 0) % addrMod
    if addr ∈ hs.codeSet then .ok (hs, [])
    else
      .ok ({ hs with
              evm := installCode remote hs.evm addr blk
              codeSet := hs.codeSet ++ [addr] },
           [.code addr blk])

/-- A `HookState` with empty state and empty dedup sets. -/
def HookState.empty : HookState :=
  { evm := EvmState.empty, codeSet := [], balanceSet := [], storageSet := [] }

/-- Outcome of the pre-dispatch portion of `Run` (the opcode-classification
switch followed by the unconditional `appendToAccessList` for
storage-interacting opcodes, both of which run before the jump-table stack
validation).  `idxOutOfRange` is the Go runtime panic raised by
`Stack.peek()` on an empty stack (`st.data[st.len()-1]` with length zero). -/
inductive PreDispatchOutcome where
  | proceed (hs : HookState) (al : ALState) (fetches : List FetchEvent)
  | errStack
  | idxOutOfRange

/-- Decidable equality for pre-dispatch outcomes is not needed; the claims
compare against the error constructors only. -/
def PreDispatchOutcome.isErrStack : PreDispatchOutcome → Bool
  | .errStack => true
  | _ => false

/-- The pre-dispatch logic of `Run` for one opcode: first the classification
switch dispatches the matching register hook (each of which checks its own
required stack depth and fails with the "insufficient elements in stack"
error); then, for `SLOAD`/`SSTORE`, `appendToAccessList` peeks the
top-of-stack slot with no depth check of its own — on an empty stack that
peek indexes out of range. -/
def preDispatch (remote : RemoteSource) (blk : Nat) (contractAddr : Address)
    (op : OpCode) (stack : List Word) (hs : HookState) (al : ALState) :
    PreDispatchOutcome :=
  let reg : Except HookErr (HookState × List FetchEvent) :=
    if readStorage op then registerAddressStorage remote contractAddr stack hs blk
    else if isCall op then registerAddressCodeForCalls remote op stack hs blk
    else if isExtCode op then registerAddressCodeForExt remote stack hs blk
    else .ok (hs, [])
  match reg with
  | .error _ => .errStack
  | .ok (hs', f) =>
    if interactWithStorage op then
      match stack.head? with
      | none => .idxOutOfRange
      | some w => .proceed hs' (appendToAccessList al contractAddr w) f
    else .proceed hs' al f

/-- The stack depth the fetch logic of each hooked opcode requires: 1 for the
storage hooks (`peek`), 3 for the call hooks (positions `len-2` and `len-3`),
1 for the external-code hooks (position `len-1`). -/
def hookDepth : OpCode → Nat
  | .SLOAD => 1
  | .SSTORE => 1
  | .CALL => 3
  | .CALLCODE => 3
  | .DELEGATECALL => 3
  | .STATICCALL => 3
  | .EXTCODECOPY => 1
  | .EXTCODEHASH => 1
  | .EXTCODESIZE => 1
  | .other => 0

/-- One opcode touch as seen by the pre-dispatch hooks: a storage read at the
executing contract, a call-class touch of a target word (with the value word
when the opcode carries one), or an external-code touch. -/
inductive OpEvent where
  | storageRead (contractAddr : Address) (slotWord : Word)
  | callTouch (withValue : Bool) (target : Word) (value : Word)
  | extTouch (target : Word)
  deriving DecidableEq, Repr

/-- Run one hook event: builds the stack fragment the hook inspects (top
first, exactly deep enough, so the depth guards pass) and applies the
corresponding register function from `vm/interpreter.go`. -/
def stepHook (remote : RemoteSource) (blk : Nat) (hs : HookState) :
    OpEvent → HookState × List FetchEvent
  | .storageRead ca w =>
    match registerAddressStorage remote ca [w] hs blk with
    | .ok r => r
    | .error _ => (hs, [])
  | .callTouch withValue t v =>
    let op := if withValue then OpCode.CALL else OpCode.DELEGATECALL
    match registerAddressCodeForCalls remote op [0, t, v] hs blk with
    | .ok r => r
    | .error _ => (hs, [])
  | .extTouch t =>
    match registerAddressCodeForExt remote [t] hs blk with
    | .ok r => r
    | .error _ => (hs, [])

/-- Run a sequence of hook events, collecting every remote fetch issued. -/
def runHooks (remote : RemoteSource) (blk : Nat) (hs : HookState) :
    List OpEvent → HookState × List FetchEvent
  | [] => (hs, [])
  | e :: es =>
    let r1 := stepHook remote blk hs e
    let r2 := runHooks remote blk r1.1 es
    (r2.1, r1.2 ++ r2.2)

/-- The interpreter-side context a pass starts from: a state store plus the
dedup sets of the record the pass is seeded with. -/
def hookStateOf (st : EvmState) (r0 : RecordToInitiateState) : HookState :=
  { evm := st
    codeSet := r0.addressCodeSet
    balanceSet := r0.addressBalanceSet
    storageSet := r0.addressStorageSet }

/-- The fetches issued across the two interpreter passes of one `Simulate`
call: pass 1 runs over the reference state with the prior record's dedup
sets; pass 2 runs over the reconstructed ideal state carrying pass 1's
resulting sets (the pass-2 record aliases pass 1's maps). -/
def twoPassFetches (remote : RemoteSource) (blk : Nat) (e1 e2 : List OpEvent)
    (st1 st2 : EvmState) (r0 : RecordToInitiateState) : List FetchEvent :=
  (runHooks remote blk (hookStateOf st1 r0) e1).2 ++
    (runHooks remote blk
      { (runHooks remote blk (hookStateOf st1 r0) e1).1 with evm := st2 }
      e2).2

/-- The dedup-set membership that suppresses any further fetch of a fact: a
code fetch is suppressed once the address is in the code set; a balance fetch
is only reachable inside the code-fetch branch, so it too is suppressed once
the address is in the code set; a storage fetch is suppressed once the key is
in the storage set. -/
def Fact.inSet : Fact → HookState → Prop
  | .codeF a, hs => a ∈ hs.codeSet
  | .balanceF a, hs => a ∈ hs.codeSet
  | .storageF a s, hs => (a, s) ∈ storageKeys hs.storageSet

theorem storageKeys_append (l1 l2 : List ((Address × Slot) × Word)) :
    storageKeys (l1 ++ l2) = storageKeys l1 ++ storageKeys l2 := by
  simp [storageKeys]

theorem lookupStorageSet_eq_none (l : List ((Address × Slot) × Word))
    (k : Address × Slot) :
    lookupStorageSet l k = none ↔ k ∉ storageKeys l := by
  induction l with
  | nil => simp [lookupStorageSet, storageKeys]
  | cons e rest ih =>
    by_cases h : e.1 = k
    · simp [lookupStorageSet, storageKeys, h]
    · simp [lookupStorageSet, storageKeys, h, ih, Ne.symm h]

@[simp] theorem countFact_append (f : Fact) (l1 l2 : List FetchEvent) :
    countFact f (l1 ++ l2) = countFact f l1 + countFact f l2 := by
  simp [countFact, List.filter_append]

@[simp] theorem countFact_nil (f : Fact) : countFact f [] = 0 := rfl

@[simp] theorem countFact_cons (f : Fact) (e : FetchEvent)
    (l : List FetchEvent) :
    countFact f (e :: l) = (if e.fact = f then 1 else 0) + countFact f l := by
  by_cases h : e.fact = f <;>
    simp [countFact, List.filter_cons, h, Nat.add_comm]

@[simp] theorem installCode_balance (remote : RemoteSource) (evm : EvmState)
    (addr : Address) (blk : Nat) :
    (installCode remote evm addr blk).balance = evm.balance := by
  simp only [installCode, EvmState.setCode, EvmState.createAccount]
  split <;> rfl

theorem Fact.inSet_evm (f : Fact) (hs : HookState) (st : EvmState) :
    f.inSet { hs with evm := st } ↔ f.inSet hs := by
  cases f <;> exact Iff.rfl

/-- The per-fact step specification for any hook outcome that leaves the
dedup sets untouched. -/
theorem specStep_noop (hs : HookState) (f : Fact) :
    (f.inSet hs → f.inSet hs ∧ countFact f ([] : List FetchEvent) = 0) ∧
    countFact f ([] : List FetchEvent) ≤ 1 ∧
    (1 ≤ countFact f ([] : List FetchEvent) → f.inSet hs) := by
  simp

/-- The per-fact step specification for the storage-hook fetch branch: one
storage fetch of a fresh key, the key appended to the storage set, the code
and balance sets untouched. -/
theorem specStep_storage (hs hs' : HookState) (ca : Address) (s : Slot)
    (blk : Nat) (v : Word)
    (hnot : (ca, s) ∉ storageKeys hs.storageSet)
    (hcs : hs'.codeSet = hs.codeSet)
    (hss : hs'.storageSet = hs.storageSet ++ [((ca, s), v)])
    (f : Fact) :
    (f.inSet hs → f.inSet hs' ∧
      countFact f [FetchEvent.storage ca s blk] = 0) ∧
    countFact f [FetchEvent.storage ca s blk] ≤ 1 ∧
    (1 ≤ countFact f [FetchEvent.storage ca s blk] → f.inSet hs') := by
  cases f with
  | codeF a => simp [Fact.inSet, FetchEvent.fact, hcs]
  | balanceF a => simp [Fact.inSet, FetchEvent.fact, hcs]
  | storageF a s' =>
    by_cases hk : ca = a ∧ s = s'
    · obtain ⟨rfl, rfl⟩ := hk
      simp [Fact.inSet, FetchEvent.fact, hss, storageKeys_append, hnot,
        storageKeys]
      intro x hx
      exact hnot (List.mem_map_of_mem Prod.fst hx)
    · have hk2 : ¬(a = ca ∧ s' = s) := fun h => hk ⟨h.1.symm, h.2.symm⟩
      simp only [Fact.inSet, FetchEvent.fact, hss, storageKeys_append,
        countFact_cons, countFact_nil]
      simp [storageKeys, hk, hk2]

/-- The per-fact step specification for the code-hook fetch branch: a code
fetch (possibly followed by a balance fetch) of one address not yet in the
code set, that address appended to the code set, the storage set untouched. -/
theorem specStep_code (hs hs' : HookState) (addr : Address) (blk : Nat)
    (evs : List FetchEvent)
    (hnot : addr ∉ hs.codeSet)
    (hcs : hs'.codeSet = hs.codeSet ++ [addr])
    (hss : hs'.storageSet = hs.storageSet)
    (hev : evs = [FetchEvent.code addr blk] ∨
      evs = [FetchEvent.code addr blk, FetchEvent.balance addr blk])
    (f : Fact) :
    (f.inSet hs → f.inSet hs' ∧ countFact f evs = 0) ∧
    countFact f evs ≤ 1 ∧
    (1 ≤ countFact f evs → f.inSet hs') := by
  have hmm : ∀ a : Address, a ∈ hs.codeSet → a ∈ hs'.codeSet := by
    intro a ha
    rw [hcs]
    exact List.mem_append_left _ ha
  cases f with
  | codeF a =>
    by_cases ha : addr = a
    · subst ha
      rcases hev with rfl | rfl <;>
        simp [Fact.inSet, FetchEvent.fact, hcs, hnot]
    · have ha2 : ¬(a = addr) := fun h => ha h.symm
      rcases hev with rfl | rfl <;>
        simp [Fact.inSet, FetchEvent.fact, ha, ha2, hcs]
  | balanceF a =>
    by_cases ha : addr = a
    · subst ha
      rcases hev with rfl | rfl <;>
        simp [Fact.inSet, FetchEvent.fact, hcs, hnot]
    · have ha2 : ¬(a = addr) := fun h => ha h.symm
      rcases hev with rfl | rfl <;>
        simp [Fact.inSet, FetchEvent.fact, ha, ha2, hcs]
  | storageF a s =>
    rcases hev with rfl | rfl <;>
      simp [Fact.inSet, FetchEvent.fact, hss]

theorem stepHook_spec (remote : RemoteSource) (blk : Nat) (hs : HookState)
    (e : OpEvent) (f : Fact) :
    (f.inSet hs → f.inSet (stepHook remote blk hs e).1 ∧
      countFact f (stepHook remote blk hs e).2 = 0) ∧
    countFact f (stepHook remote blk hs e).2 ≤ 1 ∧
    (1 ≤ countFact f (stepHook remote blk hs e).2 →
      f.inSet (stepHook remote blk hs e).1) := by
  cases e with
  | storageRead ca w =>
    rcases hl : lookupStorageSet hs.storageSet (ca, w) with _ | v
    · have hmem := (lookupStorageSet_eq_none _ _).mp hl
      have hstep : stepHook remote blk hs (.storageRead ca w) =
          ({ hs with
              evm := hs.evm.setState ca w (remote.getStorageAt ca w blk)
              storageSet :=
                hs.storageSet ++ [((ca, w), remote.getStorageAt ca w blk)] },
           [FetchEvent.storage ca w blk]) := by
        simp [stepHook, registerAddressStorage, hl]
      rw [hstep]
      refine specStep_storage hs _ ca w blk (remote.getStorageAt ca w blk)
        hmem ?_ ?_ f <;> rfl
    · have hstep : stepHook remote blk hs (.storageRead ca w) = (hs, []) := by
        simp [stepHook, registerAddressStorage, hl]
      rw [hstep]
      exact specStep_noop hs f
  | callTouch withValue t v =>
    by_cases hmem : (t % addrMod) ∈ hs.codeSet
    · have hstep : stepHook remote blk hs (.callTouch withValue t v) =
          (hs, []) := by
        cases withValue <;>
          simp [stepHook, registerAddressCodeForCalls, hmem]
      rw [hstep]
      exact specStep_noop hs f
    · cases withValue with
      | false =>
        have hstep : stepHook remote blk hs (.callTouch false t v) =
            ({ hs with
                evm := installCode remote hs.evm (t % addrMod) blk
                codeSet := hs.codeSet ++ [t % addrMod] },
             [FetchEvent.code (t % addrMod) blk]) := by
          simp [stepHook, registerAddressCodeForCalls, hmem]
        rw [hstep]
        refine specStep_code hs _ (t % addrMod) blk _ hmem ?_ ?_ (Or.inl rfl) f <;> rfl
      | true =>
        by_cases hval : v > hs.evm.balance (t % addrMod) ∧
            (t % addrMod) ∉ hs.balanceSet
        · by_cases hrb : remote.getBalance (t % addrMod) blk ≥ v
          · have hstep : stepHook remote blk hs (.callTouch true t v) =
                ({ hs with
                    evm := (installCode remote hs.evm (t % addrMod)
                        blk).addBalance (t % addrMod)
                        (remote.getBalance (t % addrMod) blk -
                          hs.evm.balance (t % addrMod))
                    codeSet := hs.codeSet ++ [t % addrMod]
                    balanceSet := hs.balanceSet ++ [t % addrMod] },
                 [FetchEvent.code (t % addrMod) blk,
                  FetchEvent.balance (t % addrMod) blk]) := by
              simp [stepHook, registerAddressCodeForCalls, hmem, hval, hrb]
            rw [hstep]
            refine specStep_code hs _ (t % addrMod) blk _ hmem ?_ ?_
              (Or.inr rfl) f <;> rfl
          · have hstep : stepHook remote blk hs (.callTouch true t v) =
                ({ hs with
                    evm := installCode remote hs.evm (t % addrMod) blk
                    codeSet := hs.codeSet ++ [t % addrMod] },
                 [FetchEvent.code (t % addrMod) blk,
                  FetchEvent.balance (t % addrMod) blk]) := by
              simp [stepHook, registerAddressCodeForCalls, hmem, hval, hrb]
            rw [hstep]
            refine specStep_code hs _ (t % addrMod) blk _ hmem ?_ ?_
              (Or.inr rfl) f <;> rfl
        · have hstep : stepHook remote blk hs (.callTouch true t v) =
              ({ hs with
                  evm := installCode remote hs.evm (t % addrMod) blk
                  codeSet := hs.codeSet ++ [t % addrMod] },
               [FetchEvent.code (t % addrMod) blk]) := by
            simp [stepHook, registerAddressCodeForCalls, hmem, hval]
          rw [hstep]
          refine specStep_code hs _ (t % addrMod) blk _ hmem ?_ ?_
            (Or.inl rfl) f <;> rfl
  | extTouch t =>
    by_cases hmem : (t % addrMod) ∈ hs.codeSet
    · have hstep : stepHook remote blk hs (.extTouch t) = (hs, []) := by
        simp [stepHook, registerAddressCodeForExt, hmem]
      rw [hstep]
      exact specStep_noop hs f
    · have hstep : stepHook remote blk hs (.extTouch t) =
          ({ hs with
              evm := installCode remote hs.evm (t % addrMod) blk
              codeSet := hs.codeSet ++ [t % addrMod] },
           [FetchEvent.code (t % addrMod) blk]) := by
        simp [stepHook, registerAddressCodeForExt, hmem]
      rw [hstep]
      refine specStep_code hs _ (t % addrMod) blk _ hmem ?_ ?_ (Or.inl rfl) f <;> rfl

theorem runHooks_inSet (remote : RemoteSource) (blk : Nat)
    (es : List OpEvent) (hs : HookState) (f : Fact) (h : f.inSet hs) :
    f.inSet (runHooks remote blk hs es).1 ∧
    countFact f (runHooks remote blk hs es).2 = 0 := by
  induction es generalizing hs with
  | nil => simpa [runHooks] using h
  | cons e es ih =>
    have hstep := (stepHook_spec remote blk hs e f).1 h
    have ih2 := ih (stepHook remote blk hs e).1 hstep.1
    constructor
    · simpa [runHooks] using ih2.1
    · simp [runHooks, hstep.2, ih2.2]

theorem runHooks_count (remote : RemoteSource) (blk : Nat)
    (es : List OpEvent) (hs : HookState) (f : Fact) :
    countFact f (runHooks remote blk hs es).2 ≤ 1 ∧
    (1 ≤ countFact f (runHooks remote blk hs es).2 →
      f.inSet (runHooks remote blk hs es).1) := by
  induction es generalizing hs with
  | nil => simp [runHooks]
  | cons e es ih =>
    rcases Nat.eq_zero_or_pos (countFact f (stepHook remote blk hs e).2)
      with h0 | hpos
    · have ih2 := ih (stepHook remote blk hs e).1
      constructor
      · simpa [runHooks, h0] using ih2.1
      · intro h1
        have : 1 ≤ countFact f (runHooks remote blk
            (stepHook remote blk hs e).1 es).2 := by
          simpa [runHooks, h0] using h1
        simpa [runHooks] using ih2.2 this
    · have hins := (stepHook_spec remote blk hs e f).2.2 hpos
      have hrest := runHooks_inSet remote blk es (stepHook remote blk hs e).1
        f hins
      constructor
      · have hle := (stepHook_spec remote blk hs e f).2.1
        simpa [runHooks, hrest.2] using hle
      · intro _
        simpa [runHooks] using hrest.1

/-- C4: for every run and every fact — an address's code, an address's
balance, or an `(address, slot)` storage value — the hooks invoke the Remote
State Source at most once per Fork Record lifetime, across both interpreter
passes of one `Simulate` call (pass 2 carries pass 1's dedup sets, and the
balance fetch is only reachable in the branch that also inserts the address
into the code set). -/
theorem claim_C4_fetch_at_most_once (remote : RemoteSource) (blk : Nat)
    (e1 e2 : List OpEvent) (st1 st2 : EvmState)
    (r0 : RecordToInitiateState) (f : Fact) :
    countFact f (twoPassFetches remote blk e1 e2 st1 st2 r0) ≤ 1 := by
  unfold twoPassFetches
  rw [countFact_append]
  rcases Nat.eq_zero_or_pos
      (countFact f (runHooks remote blk (hookStateOf st1 r0) e1).2)
    with h0 | hpos
  · rw [h0]
    simpa using (runHooks_count remote blk e2 _ f).1
  · have hins := (runHooks_count remote blk e1 (hookStateOf st1 r0) f).2 hpos
    have hins2 : f.inSet
        { (runHooks remote blk (hookStateOf st1 r0) e1).1 with evm := st2 } :=
      (Fact.inSet_evm f _ st2).mpr hins
    have h2 := (runHooks_inSet remote blk e2 _ f hins2).2
    rw [h2]
    simpa using (runHooks_count remote blk e1 (hookStateOf st1 r0) f).1

theorem applyCodeSet_code (o : EvmState) (l : List Address) (st0 : EvmState)
    (a : Address) :
    (applyCodeSet o l st0).code a = if a ∈ l then o.code a else st0.code a := by
  induction l generalizing st0 with
  | nil => simp [applyCodeSet]
  | cons x xs ih =>
    rw [applyCodeSet, List.foldl_cons, ← applyCodeSet, ih]
    by_cases hx : a ∈ xs
    · simp [hx]
    · by_cases hax : a = x
      · subst hax
        simp [hx, EvmState.setCode, EvmState.createAccount]
      · simp [hx, hax, EvmState.setCode, EvmState.createAccount]

theorem applyCodeSet_exist (o : EvmState) (l : List Address) (st0 : EvmState)
    (a : Address) :
    (applyCodeSet o l st0).exist a =
      if a ∈ l then true else st0.exist a := by
  induction l generalizing st0 with
  | nil => simp [applyCodeSet]
  | cons x xs ih =>
    rw [applyCodeSet, List.foldl_cons, ← applyCodeSet, ih]
    by_cases hx : a ∈ xs
    · simp [hx]
    · by_cases hax : a = x
      · subst hax
        simp [hx, EvmState.setCode, EvmState.createAccount]
      · simp [hx, hax, EvmState.setCode, EvmState.createAccount]

theorem applyCodeSet_balance (o : EvmState) (l : List Address)
    (st0 : EvmState) (a : Address) :
    (applyCodeSet o l st0).balance a = st0.balance a := by
  induction l generalizing st0 with
  | nil => rfl
  | cons x xs ih =>
    rw [applyCodeSet, List.foldl_cons, ← applyCodeSet]
    exact ih _

theorem applyCodeSet_storage (o : EvmState) (l : List Address)
    (st0 : EvmState) (a : Address) (s : Slot) :
    (applyCodeSet o l st0).storage a s = st0.storage a s := by
  induction l generalizing st0 with
  | nil => rfl
  | cons x xs ih =>
    rw [applyCodeSet, List.foldl_cons, ← applyCodeSet]
    exact ih _

theorem applyBalanceSet_balance (o : EvmState) (l : List Address)
    (st0 : EvmState) (a : Address) :
    (applyBalanceSet o l st0).balance a =
      if a ∈ l then o.balance a else st0.balance a := by
  induction l generalizing st0 with
  | nil => simp [applyBalanceSet]
  | cons x xs ih =>
    rw [applyBalanceSet, List.foldl_cons, ← applyBalanceSet, ih]
    by_cases hx : a ∈ xs
    · simp [hx]
    · by_cases hax : a = x
      · subst hax
        simp [hx, EvmState.setBalance]
      · simp [hx, hax, EvmState.setBalance]

theorem applyBalanceSet_code (o : EvmState) (l : List Address)
    (st0 : EvmState) (a : Address) :
    (applyBalanceSet o l st0).code a = st0.code a := by
  induction l generalizing st0 with
  | nil => rfl
  | cons x xs ih =>
    rw [applyBalanceSet, List.foldl_cons, ← applyBalanceSet]
    exact ih _

theorem applyBalanceSet_exist (o : EvmState) (l : List Address)
    (st0 : EvmState) (a : Address) :
    (applyBalanceSet o l st0).exist a = st0.exist a := by
  induction l generalizing st0 with
  | nil => rfl
  | cons x xs ih =>
    rw [applyBalanceSet, List.foldl_cons, ← applyBalanceSet]
    exact ih _

theorem applyBalanceSet_storage (o : EvmState) (l : List Address)
    (st0 : EvmState) (a : Address) (s : Slot) :
    (applyBalanceSet o l st0).storage a s = st0.storage a s := by
  induction l generalizing st0 with
  | nil => rfl
  | cons x xs ih =>
    rw [applyBalanceSet, List.foldl_cons, ← applyBalanceSet]
    exact ih _

theorem applyStorageSet_code (l : List ((Address × Slot) × Word))
    (st0 : EvmState) (a : Address) :
    (applyStorageSet l st0).code a = st0.code a := by
  induction l generalizing st0 with
  | nil => rfl
  | cons kv xs ih =>
    rw [applyStorageSet, List.foldl_cons, ← applyStorageSet]
    exact ih _

theorem applyStorageSet_exist (l : List ((Address × Slot) × Word))
    (st0 : EvmState) (a : Address) :
    (applyStorageSet l st0).exist a = st0.exist a := by
  induction l generalizing st0 with
  | nil => rfl
  | cons kv xs ih =>
    rw [applyStorageSet, List.foldl_cons, ← applyStorageSet]
    exact ih _

theorem applyStorageSet_balance (l : List ((Address × Slot) × Word))
    (st0 : EvmState) (a : Address) :
    (applyStorageSet l st0).balance a = st0.balance a := by
  induction l generalizing st0 with
  | nil => rfl
  | cons kv xs ih =>
    rw [applyStorageSet, List.foldl_cons, ← applyStorageSet]
    exact ih _

theorem applyStorageSet_storage_not_mem (l : List ((Address × Slot) × Word))
    (st0 : EvmState) (a : Address) (s : Slot)
    (h : (a, s) ∉ storageKeys l) :
    (applyStorageSet l st0).storage a s = st0.storage a s := by
  induction l generalizing st0 with
  | nil => rfl
  | cons kv xs ih =>
    rw [applyStorageSet, List.foldl_cons, ← applyStorageSet]
    have hk : ¬(kv.1 = (a, s)) := by
      intro hkk
      exact h (by simp [storageKeys, hkk])
    have hxs : (a, s) ∉ storageKeys xs := by
      intro hkk
      exact h (by simp [storageKeys] at hkk ⊢; exact Or.inr hkk)
    rw [ih _ hxs]
    have : ¬(a = kv.1.1 ∧ s = kv.1.2) := by
      rintro ⟨rfl, rfl⟩
      exact hk (Prod.ext rfl rfl).symm
    simp [EvmState.setState, this]

theorem applyStorageSet_storage_mem (l : List ((Address × Slot) × Word))
    (st0 : EvmState) (a : Address) (s : Slot) (v : Word)
    (hnd : (storageKeys l).Nodup) (h : ((a, s), v) ∈ l) :
    (applyStorageSet l st0).storage a s = v := by
  induction l generalizing st0 with
  | nil => cases h
  | cons kv xs ih =>
    have hnd' : (kv.1 :: storageKeys xs).Nodup := hnd
    rw [applyStorageSet, List.foldl_cons, ← applyStorageSet]
    rcases List.mem_cons.mp h with rfl | htail
    · have hxs : (a, s) ∉ storageKeys xs := (List.nodup_cons.mp hnd').1
      rw [applyStorageSet_storage_not_mem _ _ _ _ hxs]
      simp [EvmState.setState]
    · exact ih _ (List.nodup_cons.mp hnd').2 htail

/-- C1 counterexample inputs: a reference state holding `5` in slot `3` of
address `7`, and a record whose storage set carries the key `(7, 3)` with
stored (originally fetched) value `0`. -/
def originC1 : EvmState :=
  { exist := fun a => a = 7
    code := fun _ => []
    balance := fun _ => 0
    storage := fun a s => if a = 7 ∧ s = 3 then 5 else 0 }

/-- A record carrying one storage-set entry whose stored value differs from
the reference state's current value for the same key, as happens whenever a
pass-1 `SSTORE` overwrites a slot after its initial fetch. -/
def recC1 : RecordToInitiateState :=
  { addressCodeSet := []
    addressBalanceSet := []
    addressStorageSet := [((7, 3), 0)]
    accessList := [] }

/-- C1, counterexample: the key `(7, 3)` is present in the Fork Record's
storage set, the reference state holds `5` there, yet the reconstructed
ideal state reads back `0` — the value stored in the record, not the value
the reference state holds, refuting "every one present reads back exactly
the value the reference state holds for it". -/
theorem claim_C1_counterexample :
    ((7, 3), 0) ∈ recC1.addressStorageSet ∧
    originC1.storage 7 3 = 5 ∧
    (InitIdealState originC1 recC1).storage 7 3 = 0 := by
  refine ⟨by simp [recC1], by simp [originC1], ?_⟩
  rfl

/-- C1, amended: the ideal state contains exactly an account with code (and
existence) copied from the reference state for every address in the code
set, a balance copied from the reference state for every address in the
balance set, and — for every key of the storage set — the value stored in
the Fork Record itself (the originally fetched value); every address or key
absent from the record reads back zero/empty. -/
theorem claim_C1_ideal_state_reads (o : EvmState)
    (r : RecordToInitiateState) (a : Address) (s : Slot) :
    (a ∈ r.addressCodeSet →
      (InitIdealState o r).code a = o.code a ∧
      (InitIdealState o r).exist a = true) ∧
    (a ∉ r.addressCodeSet → (InitIdealState o r).code a = []) ∧
    (a ∈ r.addressBalanceSet →
      (InitIdealState o r).balance a = o.balance a) ∧
    (a ∉ r.addressBalanceSet → (InitIdealState o r).balance a = 0) ∧
    ((storageKeys r.addressStorageSet).Nodup →
      ∀ v : Word, ((a, s), v) ∈ r.addressStorageSet →
        (InitIdealState o r).storage a s = v) ∧
    ((a, s) ∉ storageKeys r.addressStorageSet →
      (InitIdealState o r).storage a s = 0) := by
  unfold InitIdealState
  refine ⟨?_, ?_, ?_, ?_, ?_, ?_⟩
  · intro h
    rw [applyStorageSet_code, applyBalanceSet_code, applyCodeSet_code,
      applyStorageSet_exist, applyBalanceSet_exist, applyCodeSet_exist]
    simp [h]
  · intro h
    rw [applyStorageSet_code, applyBalanceSet_code, applyCodeSet_code]
    simp [h, EvmState.empty]
  · intro h
    rw [applyStorageSet_balance, applyBalanceSet_balance]
    simp [h]
  · intro h
    rw [applyStorageSet_balance, applyBalanceSet_balance, applyCodeSet_balance]
    simp [h, EvmState.empty]
  · intro hnd v hv
    exact applyStorageSet_storage_mem _ _ _ _ _ hnd hv
  · intro h
    rw [applyStorageSet_storage_not_mem _ _ _ _ h, applyBalanceSet_storage,
      applyCodeSet_storage]
    rfl

/-- C1, witness for the amended theorem at concrete inputs. -/
theorem claim_C1_ideal_state_reads_witness :
    (InitIdealState originC1 recC1).storage 7 3 = 0 ∧
    (InitIdealState originC1 recC1).balance 7 = 0 ∧
    (InitIdealState originC1 recC1).code 7 = [] ∧
    (InitIdealState originC1 recC1).storage 1 1 = 0 :=
  ⟨(claim_C1_ideal_state_reads originC1 recC1 7 3).2.2.2.2.1 (by decide) 0
      (by decide),
   (claim_C1_ideal_state_reads originC1 recC1 7 3).2.2.2.1 (by decide),
   (claim_C1_ideal_state_reads originC1 recC1 7 3).2.1 (by decide),
   (claim_C1_ideal_state_reads originC1 recC1 1 1).2.2.2.2.2 (by decide)⟩

/-- C3: a run that touches slot `s1` on address `A`, then `s2` on `A`, then
`s1` on address `B` (each touch via the `SLOAD`/`SSTORE` hook
`appendToAccessList`, starting from the fresh bookkeeping every interpreter
run begins with) produces exactly the access list
`[(A, [s1, s2]), (B, [s1])]`: addresses in first-touch order, slots within
an address in first-touch order, no duplicate pair. -/
theorem claim_C3_access_list_order (A B : Address) (s1 s2 : Slot)
    (hab : A ≠ B) (hs : s1 ≠ s2) :
    (appendToAccessList (appendToAccessList
        (appendToAccessList ALState.empty A s1) A s2) B s1).accessList =
      [(A, [s1, s2]), (B, [s1])] := by
  have hs' : s2 ≠ s1 := hs.symm
  have hab' : B ≠ A := hab.symm
  simp [appendToAccessList, ALState.empty, containsAddr, addSlotFirst,
    hs, hs', hab, hab']

/-- C3, witness at concrete distinct addresses and slots. -/
theorem claim_C3_access_list_order_witness :
    (appendToAccessList (appendToAccessList
        (appendToAccessList ALState.empty 0 1) 0 2) 3 1).accessList =
      [(0, [1, 2]), (3, [1])] :=
  claim_C3_access_list_order 0 3 1 2 (by decide) (by decide)

/-- C7: the claim says every hooked opcode dispatched with a stack shallower
than its fetch logic requires fails with a stack-underflow error before the
fetch logic runs; the code instead reaches `appendToAccessList` for `SSTORE`
with an empty stack and indexes the stack out of range (`Stack.peek` has no
depth guard), a runtime panic rather than the stack-underflow error every
register hook returns.  This theorem evaluates the pre-dispatch logic at the
failing input. -/
theorem claim_C7_sstore_empty_stack_out_of_range :
    preDispatch remoteZero 0 0 .SSTORE [] HookState.empty ALState.empty =
      .idxOutOfRange := by
  rfl

/-- C9 counterexample context: the target address `4` is already in the code
set, so the call hook returns before any balance handling. -/
def hsC9 : HookState :=
  { evm := EvmState.empty, codeSet := [4], balanceSet := [], storageSet := [] }

/-- C9, counterexample: a `CALL` whose value `5` exceeds the target's local
balance `0`, with the target's balance never fetched — yet no remote balance
fetch happens (no fetch event at all), because the target's code was already
fetched and the hook returns early, refuting the claim as stated. -/
theorem claim_C9_counterexample :
    registerAddressCodeForCalls remoteZero .CALL [0, 4, 5] hsC9 0 =
      .ok (hsC9, []) ∧
    5 > hsC9.evm.balance (4 % addrMod) ∧
    (4 % addrMod : Address) ∉ hsC9.balanceSet := by
  refine ⟨?_, by decide, by decide⟩
  rfl

/-- C9, amended: for a `CALL`/`CALLCODE` whose target address is *not yet in
the code set*, when the requested value exceeds the target's locally known
balance and the target's balance was never fetched, the remote balance is
fetched at the block the interpreter passes; and whenever that remote
balance covers the requested value, the local balance afterwards equals the
remote balance exactly (topped up by remote minus local) and the address is
added to the balance set. -/
theorem claim_C9_call_balance_topup (remote : RemoteSource) (op : OpCode)
    (stack : List Word) (hs : HookState) (blk : Nat)
    (hop : op = .CALL ∨ op = .CALLCODE)
    (hlen : 3 ≤ stack.length)
    (hcode : (stack[1]?.getD 0) % addrMod ∉ hs.codeSet)
    (hval : stack[2]?.getD 0 >
      hs.evm.balance ((stack[1]?.getD 0) % addrMod))
    (hbal : (stack[1]?.getD 0) % addrMod ∉ hs.balanceSet) :
    ∃ hs' : HookState,
      registerAddressCodeForCalls remote op stack hs blk =
        .ok (hs',
          [.code ((stack[1]?.getD 0) % addrMod) blk,
           .balance ((stack[1]?.getD 0) % addrMod) blk]) ∧
      (remote.getBalance ((stack[1]?.getD 0) % addrMod) blk ≥
          stack[2]?.getD 0 →
        hs'.evm.balance ((stack[1]?.getD 0) % addrMod) =
          remote.getBalance ((stack[1]?.getD 0) % addrMod) blk ∧
        ((stack[1]?.getD 0) % addrMod) ∈ hs'.balanceSet) := by
  have hlen' : ¬stack.length < 3 := by omega
  have hopp : op = OpCode.CALL ∨ op = OpCode.CALLCODE := hop
  by_cases hrb : remote.getBalance ((stack[1]?.getD 0) % addrMod) blk ≥
      stack[2]?.getD 0
  · refine ⟨{ hs with
        evm := (installCode remote hs.evm ((stack[1]?.getD 0) % addrMod)
            blk).addBalance ((stack[1]?.getD 0) % addrMod)
            (remote.getBalance ((stack[1]?.getD 0) % addrMod) blk -
              (installCode remote hs.evm ((stack[1]?.getD 0) % addrMod)
                blk).balance ((stack[1]?.getD 0) % addrMod))
        codeSet := hs.codeSet ++ [(stack[1]?.getD 0) % addrMod]
        balanceSet := hs.balanceSet ++ [(stack[1]?.getD 0) % addrMod] },
      ?_, ?_⟩
    · simp [registerAddressCodeForCalls, hlen', hcode, hopp, hval, hbal, hrb]
    · intro _
      constructor
      · have hcur : hs.evm.balance ((stack[1]?.getD 0) % addrMod) ≤
            remote.getBalance ((stack[1]?.getD 0) % addrMod) blk :=
          le_of_lt (lt_of_lt_of_le hval hrb)
        simp [EvmState.addBalance, installCode_balance]
        omega
      · simp
  · refine ⟨{ hs with
        evm := installCode remote hs.evm ((stack[1]?.getD 0) % addrMod)
          blk
        codeSet := hs.codeSet ++ [(stack[1]?.getD 0) % addrMod] },
      ?_, ?_⟩
    · simp [registerAddressCodeForCalls, hlen', hcode, hopp, hval, hbal, hrb]
    · intro h
      exact absurd h hrb

/-- C9 witness oracle: remote balance `9` for every address. -/
def remoteC9 : RemoteSource :=
  { getCode := fun _ _ => []
    getStorageAt := fun _ _ _ => 0
    getBalance := fun _ _ => 9 }

/-- C9, witness for the amended theorem at a concrete covering input. -/
theorem claim_C9_call_balance_topup_witness :
    ∃ hs' : HookState,
      registerAddressCodeForCalls remoteC9 .CALL [0, 4, 5] HookState.empty 2 =
        .ok (hs',
          [.code ((([0, 4, 5] : List Word)[1]?.getD 0) % addrMod) 2,
           .balance ((([0, 4, 5] : List Word)[1]?.getD 0) % addrMod) 2]) ∧
      (remoteC9.getBalance ((([0, 4, 5] : List Word)[1]?.getD 0) % addrMod) 2 ≥
          (([0, 4, 5] : List Word)[2]?.getD 0) →
        hs'.evm.balance ((([0, 4, 5] : List Word)[1]?.getD 0) % addrMod) =
          remoteC9.getBalance ((([0, 4, 5] : List Word)[1]?.getD 0) % addrMod) 2 ∧
        ((([0, 4, 5] : List Word)[1]?.getD 0) % addrMod) ∈ hs'.balanceSet) :=
  claim_C9_call_balance_topup remoteC9 .CALL [0, 4, 5] HookState.empty 2
    (Or.inl rfl) (by decide) (by decide) (by decide) (by decide)

/-- Warm or cold EIP-2929 storage-access charge. -/
inductive ChargeKind where
  | cold
  | warm
  deriving DecidableEq, Repr

/-- Errors an interpreter run can end with: the register hooks' insufficient
stack error, the out-of-range stack index panic (`Stack.peek` on an empty
stack), the jump table's stack-underflow, and fuel exhaustion (the embedded
programs are straight-line, so fuel `length + 1` never runs out). -/
inductive RunErr where
  | hookStackError
  | stackOutOfRange
  | stackUnderflowOp
  | outOfFuel
  deriving DecidableEq, Repr

/-- The opcode class of a structured instruction, for the `Run` dispatch
switch (only `SLOAD`/`SSTORE` of the embedded instruction set are hooked). -/
def Instr.toOp : Instr → OpCode
  | .sload => .SLOAD
  | .sstore => .SSTORE
  | _ => .other

/-- The jump table's `minStack` for the embedded instruction set. -/
def minStackOf : Instr → Nat
  | .push0 => 0
  | .push1 _ => 0
  | .calldataload => 1
  | .sload => 1
  | .sstore => 2
  | .add => 2
  | .mstore => 2
  | .ret => 2
  | .stop => 0

/-- The full per-run interpreter state: operand stack (top first), the one
memory word the embedded programs use (offset 0), the state store plus dedup
sets, the access-list bookkeeping, the EIP-2929 warm-slot set, the charge
trace and the fetch trace. -/
structure MachineState where
  stack : List Word
  mem : Word
  hook : HookState
  al : ALState
  warmSlots : List (Address × Slot)
  charges : List ((Address × Slot) × ChargeKind)
  fetches : List FetchEvent

/-- One dispatch step either continues or halts with optional return data. -/
inductive StepOut where
  | cont (ms : MachineState)
  | halt (r : Option Word) (ms : MachineState)

/-- One iteration of the `Run` loop for one instruction, in source order:
the classification switch runs the register hook (which can fail with the
insufficient-stack error); `appendToAccessList` peeks the top of the stack
with no depth guard for storage-interacting opcodes; the jump table
validates `minStack`; the warm/cold storage charge is resolved against the
warm-slot set (modelled from the spec: EIP-2929 charges cold on first touch
and warm afterwards, with access-list entries pre-warmed); finally the
opcode's own semantics execute (modelled from the spec, since per-opcode
semantics are an external collaborator). -/
def step (remote : RemoteSource) (blk : Nat) (contractAddr : Address)
    (input : Word) (ms : MachineState) (i : Instr) : Except RunErr StepOut :=
  match (if readStorage i.toOp then
      registerAddressStorage remote contractAddr ms.stack ms.hook blk
    else .ok (ms.hook, [])) with
  | .error _ => .error .hookStackError
  | .ok (hk, fs) =>
    match ((if interactWithStorage i.toOp then
        match ms.stack.head? with
        | none => .error RunErr.stackOutOfRange
        | some w => .ok (appendToAccessList ms.al contractAddr w)
      else .ok ms.al) : Except RunErr ALState) with
    | .error e => .error e
    | .ok al2 =>
      if ms.stack.length < minStackOf i then .error .stackUnderflowOp
      else
        let slotTouch := ms.stack.headD 0
        let isStorageOp := interactWithStorage i.toOp
        let isWarm := (contractAddr, slotTouch) ∈ ms.warmSlots
        let warm2 :=
          if isStorageOp ∧ ¬isWarm then ms.warmSlots ++ [(contractAddr, slotTouch)]
          else ms.warmSlots
        let charges2 :=
          if isStorageOp then
            ms.charges ++ [((contractAddr, slotTouch),
              if isWarm then ChargeKind.warm else ChargeKind.cold)]
          else ms.charges
        let ms1 : MachineState :=
          { ms with
            hook := hk
            al := al2
            warmSlots := warm2
            charges := charges2
            fetches := ms.fetches ++ fs }
        match i with
        | .push0 => .ok (.cont { ms1 with stack := 0 :: ms1.stack })
        | .push1 n => .ok (.cont { ms1 with stack := n :: ms1.stack })
        | .calldataload =>
          match ms1.stack with
          | p :: rest =>
            .ok (.cont { ms1 with
              stack := (if p = 0 then input else 0) :: rest })
          | [] => .error .stackUnderflowOp
        | .sload =>
          match ms1.stack with
          | s :: rest =>
            .ok (.cont { ms1 with
              stack := ms1.hook.evm.storage contractAddr s :: rest })
          | [] => .error .stackUnderflowOp
        | .sstore =>
          match ms1.stack with
          | s :: v :: rest =>
            .ok (.cont { ms1 with
              hook := { ms1.hook with
                evm := ms1.hook.evm.setState contractAddr s v }
              stack := rest })
          | _ => .error .stackUnderflowOp
        | .add =>
          match ms1.stack with
          | a :: b :: rest =>
            .ok (.cont { ms1 with stack := ((a + b) % wordMod) :: rest })
          | _ => .error .stackUnderflowOp
        | .mstore =>
          match ms1.stack with
          | off :: v :: rest =>
            .ok (.cont { ms1 with
              mem := if off = 0 then v else ms1.mem
              stack := rest })
          | _ => .error .stackUnderflowOp
        | .ret =>
          match ms1.stack with
          | off :: sz :: rest =>
            .ok (.halt (if off = 0 ∧ sz = 32 then some ms1.mem else none)
              { ms1 with stack := rest })
          | _ => .error .stackUnderflowOp
        | .stop => .ok (.halt none ms1)

/-- The `Run` loop: fetch the opcode at the program counter (`GetOp` returns
`STOP` past the end of the code), dispatch one step, advance.  Fuel bounds
the straight-line programs; `code.length + 1` always suffices. -/
def runCode (remote : RemoteSource) (blk : Nat) (contractAddr : Address)
    (input : Word) (code : Code) :
    Nat → Nat → MachineState → Except RunErr (Option Word × MachineState)
  | 0, _, _ => .error .outOfFuel
  | fuel + 1, pc, ms =>
    match step remote blk contractAddr input ms (code.getD pc .stop) with
    | .error e => .error e
    | .ok (.cont ms2) => runCode remote blk contractAddr input code fuel
        (pc + 1) ms2
    | .ok (.halt r ms2) => .ok (r, ms2)

/-- The record an interpreter run hands back (`GetRecordToInitState`). -/
def recordOf (hs : HookState) (al : AccessList) : RecordToInitiateState :=
  { addressCodeSet := hs.codeSet
    addressBalanceSet := hs.balanceSet
    addressStorageSet := hs.storageSet
    accessList := al }

/-- The slot pairs an access list pre-warms (`state.Prepare` with the
supplied access list; modelled from the spec's EIP-2930 description). -/
def warmFromAccessList (al : AccessList) : List (Address × Slot) :=
  al.flatMap (fun e => e.2.map (fun s => (e.1, s)))

/-- What `runtime.Execute` returns, plus the mutated state (Go mutates the
passed `StateDB` in place) and the charge/fetch traces the formalisation
observes. -/
structure ExecResult where
  ret : Option Word
  record : RecordToInitiateState
  charges : List ((Address × Slot) × ChargeKind)
  fetches : List FetchEvent
  finalState : EvmState

/-- `runtime.Execute`: seed the interpreter's dedup sets from the supplied
record (fresh when none) with the access-list bookkeeping always fresh;
create the origin account when absent; install and mark the origin balance
when positive; pre-warm the supplied record's access list
(`state.Prepare`); create the target account and install `code`, marking
the code set, only when the target does not exist; then run the code the
state store holds for the target (`Call` reads the callee's code from the
state; an empty code returns immediately with no output). -/
def Execute (remote : RemoteSource) (blk : Nat) (address : Address)
    (originBalance : Nat) (code : Code) (input : Word) (origin : Address)
    (st : EvmState) (recordToInit : Option RecordToInitiateState) :
    Except RunErr ExecResult :=
  let hs0 := hookStateOf st (recordToInit.getD RecordToInitiateState.empty)
  let hs1 := if hs0.evm.exist origin then hs0
    else { hs0 with evm := hs0.evm.createAccount origin }
  let hs2 := if originBalance > 0 then
      { hs1 with
        evm := hs1.evm.setBalance origin originBalance
        balanceSet := hs1.balanceSet ++ [origin] }
    else hs1
  let warm0 := warmFromAccessList
    ((recordToInit.map (fun r => r.accessList)).getD [])
  let hs3 := if hs2.evm.exist address then hs2
    else { hs2 with
      evm := (hs2.evm.createAccount address).setCode address code
      codeSet := hs2.codeSet ++ [address] }
  let runcode := hs3.evm.code address
  if runcode = [] then
    .ok { ret := none
          record := recordOf hs3 []
          charges := []
          fetches := []
          finalState := hs3.evm }
  else
    match runCode remote blk address input runcode (runcode.length + 1) 0
        { stack := []
          mem := 0
          hook := hs3
          al := ALState.empty
          warmSlots := warm0
          charges := []
          fetches := [] } with
    | .error e => .error e
    | .ok (r, ms2) =>
      .ok { ret := r
            record := recordOf ms2.hook ms2.al.accessList
            charges := ms2.charges
            fetches := ms2.fetches
            finalState := ms2.hook.evm }

/-- A simulation request (`Simulation`), with the input calldata carried as
its leading 32-byte word (the only part the embedded programs read). -/
structure Simulation where
  fromAddr : Address
  toAddr : Address
  blockNumber : Nat
  gasLimit : Nat
  gasPrice : Nat
  value : Nat
  input : Word
  code : Code

/-- Errors `Simulate`/`unoptimalSimulation` surface. -/
inductive SimErr where
  | insufficientBalance
  | exec (e : RunErr)
  deriving DecidableEq, Repr

/-- What `Simulate` returns to the caller, with the accounting pass's charge
trace kept as the formal observable for warm/cold accounting. -/
structure SimulationResult where
  ret : Option Word
  record : RecordToInitiateState
  charges : List ((Address × Slot) × ChargeKind)

/-- Events observable at the `Simulate` level: the two pre-execution remote
fetches and the two interpreter passes. -/
inductive SimEvent where
  | fetchCode (a : Address)
  | fetchBalance (a : Address)
  | pass1
  | pass2
  deriving DecidableEq, Repr

/-- The code `Simulate` resolves before executing: the request's explicit
code if any, else the reference state's code for the target, fetched
remotely when the state holds none. -/
def simCode (remote : RemoteSource) (sim : Simulation) (st : EvmState) :
    Code :=
  if sim.code = [] then
    (if (st.code sim.toAddr).length = 0 then
      remote.getCode sim.toAddr sim.blockNumber
    else st.code sim.toAddr)
  else sim.code

/-- The origin balance `Simulate` passes to both passes: the remotely
fetched sender balance when `Value > 0` and the reference state holds zero,
else zero (the variable's initial value). -/
def simBalance (remote : RemoteSource) (sim : Simulation) (st : EvmState) :
    Nat :=
  if sim.value > 0 ∧ st.balance sim.fromAddr = 0 then
    remote.getBalance sim.fromAddr sim.blockNumber
  else 0

/-- The two interpreter passes of `Simulate`: pass 1 seeded with the prior
record's sets and the access list withheld (the `AccessList` field is
commented out in the source), the ideal state reconstructed from pass 1's
resulting record and mutated state, pass 2 seeded with the full record; the
result carries pass 2's returned data, record and charges. -/
def simulateRun (remote : RemoteSource) (sim : Simulation) (st : EvmState)
    (recordInitializer : Option RecordToInitiateState) (code : Code)
    (balance : Nat) (ev : List SimEvent) :
    Except SimErr SimulationResult × List SimEvent :=
  match Execute remote sim.blockNumber sim.toAddr balance code sim.input
      sim.fromAddr st
      (recordInitializer.map (fun r => { r with accessList := [] })) with
  | .error e => (.error (.exec e), ev ++ [SimEvent.pass1])
  | .ok r1 =>
    match Execute remote sim.blockNumber sim.toAddr balance code sim.input
        sim.fromAddr (InitIdealState r1.finalState r1.record)
        (some r1.record) with
    | .error e => (.error (.exec e), ev ++ [SimEvent.pass1, SimEvent.pass2])
    | .ok r2 =>
      (.ok { ret := r2.ret, record := r2.record, charges := r2.charges },
       ev ++ [SimEvent.pass1, SimEvent.pass2])

/-- `Simulate` from the simulator package: resolve the code (fetching it
remotely when neither the request nor the reference state holds any); when
`Value > 0` and the sender's reference balance is zero, fetch the sender's
remote balance and fail with the insufficient-balance error when it is less
than or equal to `Value`, before any pass runs; otherwise run the two-pass
protocol. -/
def simulate (remote : RemoteSource) (sim : Simulation) (st : EvmState)
    (recordInitializer : Option RecordToInitiateState) :
    Except SimErr SimulationResult × List SimEvent :=
  let ev1 : List SimEvent :=
    if sim.code = [] ∧ (st.code sim.toAddr).length = 0 then
      [SimEvent.fetchCode sim.toAddr]
    else []
  if sim.value > 0 ∧ st.balance sim.fromAddr = 0 then
    if remote.getBalance sim.fromAddr sim.blockNumber ≤ sim.value then
      (.error .insufficientBalance, ev1 ++ [SimEvent.fetchBalance sim.fromAddr])
    else
      simulateRun remote sim st recordInitializer (simCode remote sim st)
        (simBalance remote sim st)
        (ev1 ++ [SimEvent.fetchBalance sim.fromAddr])
  else
    simulateRun remote sim st recordInitializer (simCode remote sim st)
      (simBalance remote sim st) ev1

/-- `unoptimalSimulation`: same code resolution; the working balance is the
state's sender balance, remotely fetched when `Value > 0` and the state
holds zero; fails with the insufficient-balance error only when the
resulting balance is *strictly less* than `Value`; then a single execution
with the supplied record (access list included).  Returns the result
together with the mutated state (Go mutates the `StateDB` in place). -/
def unoptimalSimulation (remote : RemoteSource) (sim : Simulation)
    (st : EvmState) (recordInitializer : Option RecordToInitiateState) :
    Except SimErr (SimulationResult × EvmState) :=
  let balance :=
    if sim.value > 0 ∧ st.balance sim.fromAddr = 0 then
      remote.getBalance sim.fromAddr sim.blockNumber
    else st.balance sim.fromAddr
  if balance < sim.value then .error .insufficientBalance
  else
    match Execute remote sim.blockNumber sim.toAddr balance
        (simCode remote sim st) sim.input sim.fromAddr st
        recordInitializer with
    | .error e => .error (.exec e)
    | .ok r1 =>
      .ok ({ ret := r1.ret, record := r1.record, charges := r1.charges },
        r1.finalState)

/-- Pass 1 of `SimulateBundle`: per transaction in order, a single-pass
execution over the shared, in-place-mutated state, carrying the record
forward with its access list detached and capturing each transaction's own
access list. -/
def bundlePass1 (remote : RemoteSource) :
    List Simulation → EvmState → Option RecordToInitiateState →
    Except SimErr (EvmState × Option RecordToInitiateState × List AccessList)
  | [], st, rec => .ok (st, rec, [])
  | sim :: rest, st, rec =>
    match unoptimalSimulation remote sim st rec with
    | .error e => .error e
    | .ok (res, st2) =>
      match bundlePass1 remote rest st2
          (some { res.record with accessList := [] }) with
      | .error e => .error e
      | .ok (stf, recf, als) => .ok (stf, recf, res.record.accessList :: als)

/-- Pass 2 of `SimulateBundle`: per transaction in order, reattach its
captured access list to the carried record, execute against the working
state, commit to a new root and reopen it (content-preserving, so the next
transaction works on the resulting state). -/
def bundlePass2 (remote : RemoteSource) :
    List Simulation → List AccessList → EvmState → RecordToInitiateState →
    Except SimErr (List SimulationResult)
  | [], _, _, _ => .ok []
  | sim :: rest, als, st, rec =>
    match unoptimalSimulation remote sim st
        (some { rec with accessList := als.headD [] }) with
    | .error e => .error e
    | .ok (res, st2) =>
      match bundlePass2 remote rest (als.tailD []) st2 res.record with
      | .error e => .error e
      | .ok rs => .ok (res :: rs)

/-- `SimulateBundle`: run pass 1 over all transactions against the shared
reference state, reconstruct one ideal state from the final accumulated
record, then run pass 2 over all transactions chaining committed states. -/
def simulateBundle (remote : RemoteSource) (sims : List Simulation)
    (st : EvmState) (rec0 : Option RecordToInitiateState) :
    Except SimErr (List SimulationResult) :=
  match bundlePass1 remote sims st rec0 with
  | .error e => .error e
  | .ok (st1, recf, als) =>
    bundlePass2 remote sims als
      (InitIdealState st1 (recf.getD RecordToInitiateState.empty))
      (recf.getD RecordToInitiateState.empty)

/-- Occurrences of one charge kind for one `(address, slot)` key in a
charge trace. -/
def countCharges (k : ChargeKind) (key : Address × Slot)
    (l : List ((Address × Slot) × ChargeKind)) : Nat :=
  (l.filter (fun c => decide (c.1 = key ∧ c.2 = k))).length

/-- The two-`SLOAD`s-of-one-fresh-slot program of the two-pass gas claim. -/
def codeC2 : Code := [.push0, .sload, .push0, .sload]

/-- The C2 simulation request: run `codeC2` at address `17` with no value. -/
def simC2 : Simulation :=
  { fromAddr := 0, toAddr := 17, blockNumber := 1, gasLimit := 300000
    gasPrice := 0, value := 0, input := 0, code := codeC2 }

/-- The pass-2 (accounting) charge trace `Simulate` returns for `simC2`. -/
def chargesC2 : List ((Address × Slot) × ChargeKind) :=
  match (simulate remoteZero simC2 EvmState.empty none).1 with
  | .ok r => r.charges
  | .error _ => []

/-- The pass-1 (discovery) charge trace for the same program, run the way
`Simulate` seeds pass 1 (no record). -/
def chargesC2pass1 : List ((Address × Slot) × ChargeKind) :=
  match Execute remoteZero 1 17 0 codeC2 0 0 EvmState.empty none with
  | .ok r => r.charges
  | .error _ => []

/-- C2, counterexample: for the program that reads a fresh slot twice, the
pass-2 accounting run does *not* charge one cold and one warm access for
that slot — the slot is pre-warmed by pass 1's access list, so pass 2
charges it warm both times. -/
theorem claim_C2_counterexample :
    ¬(countCharges .cold (17, 0) chargesC2 = 1 ∧
      countCharges .warm (17, 0) chargesC2 = 1) := by
  decide

/-- C2, amended: for the program that reads a fresh slot twice, pass 1
charges the slot exactly one cold and one warm access, while the pass-2
accounting run — seeded with pass 1's access list, which pre-warms the slot
— charges it zero cold and two warm accesses; in particular pass 2 never
charges the slot cold twice. -/
theorem claim_C2_two_pass_charges :
    countCharges .cold (17, 0) chargesC2 = 0 ∧
    countCharges .warm (17, 0) chargesC2 = 2 ∧
    countCharges .cold (17, 0) chargesC2pass1 = 1 ∧
    countCharges .warm (17, 0) chargesC2pass1 = 1 := by
  decide

/-- The per-transaction program of the bundle claim: load the input word,
read the slot, add, write the slot, read it back, return the 32-byte
word. -/
def bundleCode : Code :=
  [.push0, .calldataload, .push0, .sload, .add, .push0, .sstore,
   .push0, .sload, .push0, .mstore, .push1 32, .push0, .ret]

/-- The bundle claim's transaction with a given input word. -/
def simC5 (i : Word) : Simulation :=
  { fromAddr := 0, toAddr := 17, blockNumber := 1, gasLimit := 300000
    gasPrice := 0, value := 0, input := i, code := bundleCode }

/-- The returned words of the three-transaction bundle with inputs 1, 2, 3
against the same slot. -/
def bundleOutputs : List (Option Word) :=
  match simulateBundle remoteZero [simC5 1, simC5 2, simC5 3]
      EvmState.empty none with
  | .ok rs => rs.map (fun r => SimulationResult.ret r)
  | .error _ => []

/-- C5: the three-transaction bundle returns `1`, `3`, `6` in order — each
pass-2 transaction runs against the state the previous transaction's commit
left behind, so it observes the previous write. -/
theorem claim_C5_bundle_sequential_visibility :
    bundleOutputs = [some 1, some 3, some 6] := by
  rfl

/-- C6: whenever `Value > 0`, the sender's reference-state balance is zero
and the fetched remote balance is less than or equal to `Value`, `Simulate`
fetches the sender's remote balance and returns the insufficient-balance
error with neither interpreter pass run (no opcode executes and no
execution side effects occur). -/
theorem claim_C6_insufficient_balance_precheck (remote : RemoteSource)
    (sim : Simulation) (st : EvmState) (rec : Option RecordToInitiateState)
    (hv : 0 < sim.value) (hb : st.balance sim.fromAddr = 0)
    (hr : remote.getBalance sim.fromAddr sim.blockNumber ≤ sim.value) :
    (simulate remote sim st rec).1 = .error .insufficientBalance ∧
    SimEvent.fetchBalance sim.fromAddr ∈ (simulate remote sim st rec).2 ∧
    SimEvent.pass1 ∉ (simulate remote sim st rec).2 ∧
    SimEvent.pass2 ∉ (simulate remote sim st rec).2 := by
  have hcond : 0 < sim.value ∧ st.balance sim.fromAddr = 0 := ⟨hv, hb⟩
  by_cases hc : sim.code = [] ∧ (st.code sim.toAddr).length = 0 <;>
    simp [simulate, hcond, hr, hc]

/-- C6 witness request: `Value = 1`, empty reference state, zero remote
balance. -/
def simC6 : Simulation :=
  { fromAddr := 5, toAddr := 17, blockNumber := 1, gasLimit := 300000
    gasPrice := 0, value := 1, input := 0, code := [.stop] }

/-- C6, witness at a concrete input. -/
theorem claim_C6_insufficient_balance_precheck_witness :
    (simulate remoteZero simC6 EvmState.empty none).1 =
      .error .insufficientBalance ∧
    SimEvent.fetchBalance simC6.fromAddr ∈
      (simulate remoteZero simC6 EvmState.empty none).2 ∧
    SimEvent.pass1 ∉ (simulate remoteZero simC6 EvmState.empty none).2 ∧
    SimEvent.pass2 ∉ (simulate remoteZero simC6 EvmState.empty none).2 :=
  claim_C6_insufficient_balance_precheck remoteZero simC6 EvmState.empty none
    (by decide) (by decide) (by decide)

/-- C10 request: positive `Value = 1` with a zero reference balance. -/
def simC10 : Simulation :=
  { fromAddr := 5, toAddr := 17, blockNumber := 1, gasLimit := 300000
    gasPrice := 0, value := 1, input := 0, code := [.stop] }

/-- C10 oracle: the sender's remote balance exactly equals the value. -/
def remoteC10 : RemoteSource :=
  { getCode := fun _ _ => []
    getStorageAt := fun _ _ _ => 0
    getBalance := fun _ _ => 1 }

/-- C10: `Simulate` fails when the fetched remote balance is less than *or
equal to* `Value`, while `unoptimalSimulation` (the per-transaction path of
`SimulateBundle`) fails only when the known balance is *strictly less* than
`Value`; at a sender whose fetched balance exactly equals the positive
value, `Simulate` returns the insufficient-balance error while the same
transaction inside the bundle path proceeds to execution. -/
theorem claim_C10_divergent_balance_predicates :
    (simulate remoteC10 simC10 EvmState.empty none).1 =
      .error .insufficientBalance ∧
    (∃ r, unoptimalSimulation remoteC10 simC10 EvmState.empty none =
      .ok r) :=
  ⟨rfl, ⟨_, rfl⟩⟩

/-- C8: with the pre-execution balance check passing, (1) `Simulate` is
insensitive to the access list carried by the caller's prior record — pass 1
is seeded with the prior record's sets only, the access list withheld — and
(2) the result is pass 2's: pass 1 runs over the reference state with the
set-only record, the ideal state is reconstructed from pass 1's mutated
state and resulting record, pass 2 runs over it seeded with pass 1's full
record (sets and access list), and the returned result carries pass 2's
returned bytes, record and charges. -/
theorem claim_C8_two_pass_structure (remote : RemoteSource)
    (sim : Simulation) (st : EvmState) (r : RecordToInitiateState)
    (hpre : ¬(0 < sim.value ∧ st.balance sim.fromAddr = 0 ∧
      remote.getBalance sim.fromAddr sim.blockNumber ≤ sim.value)) :
    (∀ al : AccessList,
      simulate remote sim st (some { r with accessList := al }) =
        simulate remote sim st (some r)) ∧
    (simulate remote sim st (some r)).1 =
      (match Execute remote sim.blockNumber sim.toAddr
          (simBalance remote sim st) (simCode remote sim st) sim.input
          sim.fromAddr st (some { r with accessList := [] }) with
       | .error e => .error (.exec e)
       | .ok r1 =>
         match Execute remote sim.blockNumber sim.toAddr
            (simBalance remote sim st) (simCode remote sim st) sim.input
            sim.fromAddr (InitIdealState r1.finalState r1.record)
            (some r1.record) with
         | .error e => .error (.exec e)
         | .ok r2 =>
           .ok { ret := r2.ret, record := r2.record,
                 charges := r2.charges }) := by
  constructor
  · intro al
    rfl
  · by_cases hcond : 0 < sim.value ∧ st.balance sim.fromAddr = 0
    · have hgt : ¬(remote.getBalance sim.fromAddr sim.blockNumber ≤
          sim.value) := fun h => hpre ⟨hcond.1, hcond.2, h⟩
      rcases hE : Execute remote sim.blockNumber sim.toAddr
          (simBalance remote sim st) (simCode remote sim st) sim.input
          sim.fromAddr st (some { r with accessList := [] }) with e | r1
      · simp [simulate, simulateRun, hcond, hgt, hE]
      · rcases hE2 : Execute remote sim.blockNumber sim.toAddr
            (simBalance remote sim st) (simCode remote sim st) sim.input
            sim.fromAddr (InitIdealState r1.finalState r1.record)
            (some r1.record) with e2 | r2
        · simp [simulate, simulateRun, hcond, hgt, hE, hE2]
        · simp [simulate, simulateRun, hcond, hgt, hE, hE2]
    · rcases hE : Execute remote sim.blockNumber sim.toAddr
          (simBalance remote sim st) (simCode remote sim st) sim.input
          sim.fromAddr st (some { r with accessList := [] }) with e | r1
      · simp [simulate, simulateRun, hcond, hE]
      · rcases hE2 : Execute remote sim.blockNumber sim.toAddr
            (simBalance remote sim st) (simCode remote sim st) sim.input
            sim.fromAddr (InitIdealState r1.finalState r1.record)
            (some r1.record) with e2 | r2
        · simp [simulate, simulateRun, hcond, hE, hE2]
        · simp [simulate, simulateRun, hcond, hE, hE2]

/-- C8 witness request: zero value, explicit one-instruction code. -/
def simC8 : Simulation :=
  { fromAddr := 0, toAddr := 17, blockNumber := 1, gasLimit := 300000
    gasPrice := 0, value := 0, input := 0, code := [.stop] }

/-- C8 witness prior record: nonempty sets and a nonempty access list (which
pass 1 must ignore). -/
def recC8 : RecordToInitiateState :=
  { addressCodeSet := [3]
    addressBalanceSet := []
    addressStorageSet := []
    accessList := [(9, [1])] }

/-- C8, witness at a concrete input. -/
theorem claim_C8_two_pass_structure_witness :
    (∀ al : AccessList,
      simulate remoteZero simC8 EvmState.empty
          (some { recC8 with accessList := al }) =
        simulate remoteZero simC8 EvmState.empty (some recC8)) ∧
    (simulate remoteZero simC8 EvmState.empty (some recC8)).1 =
      (match Execute remoteZero simC8.blockNumber simC8.toAddr
          (simBalance remoteZero simC8 EvmState.empty)
          (simCode remoteZero simC8 EvmState.empty) simC8.input
          simC8.fromAddr EvmState.empty
          (some { recC8 with accessList := [] }) with
       | .error e => .error (.exec e)
       | .ok r1 =>
         match Execute remoteZero simC8.blockNumber simC8.toAddr
            (simBalance remoteZero simC8 EvmState.empty)
            (simCode remoteZero simC8 EvmState.empty) simC8.input
            simC8.fromAddr (InitIdealState r1.finalState r1.record)
            (some r1.record) with
         | .error e => .error (.exec e)
         | .ok r2 =>
           .ok { ret := r2.ret, record := r2.record,
                 charges := r2.charges }) :=
  claim_C8_two_pass_structure remoteZero simC8 EvmState.empty recC8
    (by decide)

end EvmSim